import Mathlib

/-!
Verification of the query/request builder of `src/collection.js`
(`Hook.Collection`).

The builder is shallowly embedded: JavaScript runtime values are the
inductive `JSVal`, the mutable instance fields of the `Collection` class
become a Lean structure that every method threads explicitly, and each
terminal verb returns the transport call it would issue (a `Dispatch`
value) together with the builder state left behind.  Methods that can
throw synchronously (`addWhere` on a non-string operator, the
constructor's name validation, `channel`) return `Except String`.
-/

/-- JavaScript runtime values as used by the collection builder: the
primitives, arrays and plain objects (ordered field lists).  A JS
`undefined` — in particular an omitted optional argument — is `undef`.
Numbers are modelled as rationals, covering every finite double the
client's numeric arguments can be (integers, but also non-integral
directions such as `-1.5`); `NaN` and the infinities are outside the
model. -/
inductive JSVal where
  | undef
  | null
  | bool (b : Bool)
  | num (n : ℚ)
  | str (s : String)
  | arr (elems : List JSVal)
  | obj (entries : List (String × JSVal))

/-- JavaScript truthiness.  With numbers modelled as rationals, `0` is
the only falsy number (`NaN` is outside the model). -/
def JSVal.truthy : JSVal → Bool
  | .undef => false
  | .null => false
  | .bool b => b
  | .num n => n != 0
  | .str s => s != ""
  | .arr _ => true
  | .obj _ => true

/-- Test for the JS value `undefined`, as in `typeof(x) === "undefined"`. -/
def JSVal.isUndef : JSVal → Bool
  | .undef => true
  | _ => false

/-- JavaScript `ToString` for a value sitting inside an array being
joined: `undefined` and `null` join as empty strings. -/
def jsStrPrim : JSVal → String
  | .undef => ""
  | .null => ""
  | .bool b => cond b "true" "false"
  | .num n => toString n
  | .str s => s
  | .arr _ => ""
  | .obj _ => "[object Object]"

/-- JavaScript `ToString` coercion, used where the source concatenates an
id into a path (`this.segments + '/' + _id`).  Ids are primitives in this
client; integer-valued numbers print their integer part exactly as in
JS, while a non-integral number renders in `num/den` notation and a
nested array is approximated by the empty string — both only matter for
pathological ids that never reach a path. -/
def JSVal.jsStr : JSVal → String
  | .undef => "undefined"
  | .null => "null"
  | .bool b => cond b "true" "false"
  | .num n => toString n
  | .str s => s
  | .arr xs => String.intercalate "," (xs.map jsStrPrim)
  | .obj _ => "[object Object]"

/-- ASCII lower-casing of one character, as `String.prototype.toLowerCase`
acts on the operator strings this client uses. -/
def lowerChar (ch : Char) : Char :=
  if 'A' ≤ ch ∧ ch ≤ 'Z' then Char.ofNat (ch.toNat + 32) else ch

/-- The `operation.toLowerCase()` call of `addWhere`: on a string it
lower-cases, on any other value it throws a `TypeError` synchronously. -/
def toLowerCaseJS : JSVal → Except String String
  | .str s => .ok (String.mk (s.data.map lowerChar))
  | _ => .error "TypeError: operation.toLowerCase is not a function"

/-- One stored `where` clause, exactly the 4-tuple the source pushes:
`[field, operation.toLowerCase(), value, boolean]`.  The field and the
combinator are stored verbatim (the source never coerces them). -/
abbrev Clause := JSVal × String × JSVal × JSVal

/-- The `this.options` object.  `reset` assigns a fresh empty object, so
every kind starts absent (`none`); setters assign the stored payload
verbatim. -/
structure Options where
  select : Option JSVal := none
  with_ : Option JSVal := none
  distinct : Option JSVal := none
  aggregation : Option JSVal := none
  operation : Option JSVal := none
  data : Option JSVal := none
  first : Option JSVal := none
  paginate : Option JSVal := none

/-- The mutable instance state of a `Hook.Collection`: the validated
name, the precomputed path prefix `segments`, and the accumulator fields
assigned by `reset`. -/
structure Collection where
  name : String
  segments : String
  options : Options
  wheres : List Clause
  ordering : List (JSVal × JSVal)
  _group : List JSVal
  _limit : Option JSVal
  _offset : Option JSVal
  _remember : Option JSVal

/-- The four transport verbs the builder dispatches through
(`client.get/post/put/remove`).  `remove` records whether the second
argument was passed at all (`drop` calls it with only a path). -/
inductive Dispatch where
  | get (path : String) (query : JSVal)
  | post (path : String) (payload : JSVal)
  | put (path : String) (payload : JSVal)
  | remove (path : String) (query : Option JSVal)

/-- Discriminator for the transport's `put` channel. -/
def Dispatch.isPut : Dispatch → Bool
  | .put _ _ => true
  | _ => false

/-- The `reset()` method: clears every accumulator field to its default,
keeping the builder identity (name and segments). -/
def Collection.reset (c : Collection) : Collection :=
  { c with
    options := {}
    wheres := []
    ordering := []
    _group := []
    _limit := none
    _offset := none
    _remember := none }

/-- Character class of the name regexp `[a-z_\/0-9]`. -/
def nameChar (ch : Char) : Bool :=
  (('a' ≤ ch) && (ch ≤ 'z')) || ch == '_' || ch == '/' || (('0' ≤ ch) && (ch ≤ '9'))

/-- Shallow embedding of `/^[a-z_\/0-9]+$/.test(name)`: at least one
character, and every character in the class. -/
def nameRegexpTest (name : String) : Bool :=
  name.length > 0 && name.data.all nameChar

/-- The `_validateName` method: returns the name unchanged when the
regexp accepts it, otherwise throws `"Invalid name: " + name`. -/
def Collection._validateName (name : String) : Except String String :=
  if nameRegexpTest name then .ok name else .error ("Invalid name: " ++ name)

/-- The state a freshly constructed builder holds for a (valid) name:
the `reset` defaults plus `segments = 'collection/' + name`. -/
def Collection.init (name : String) : Collection :=
  { name := name
    segments := "collection/" ++ name
    options := {}
    wheres := []
    ordering := []
    _group := []
    _limit := none
    _offset := none
    _remember := none }

/-- The constructor: validates the name and, on success, produces the
fresh builder state.  The transport collaborator itself is kept outside
the model (dispatches are returned as data). -/
def Collection.construct (name : String) : Except String Collection :=
  match Collection._validateName name with
  | .ok n => .ok (Collection.init n)
  | .error e => .error e

/-- The `addWhere` helper: pushes `[field, operation.toLowerCase(),
value, boolean]` onto `this.wheres`. -/
def Collection.addWhere (c : Collection) (field operation value boolean : JSVal) :
    Except String Collection := do
  let op ← toLowerCaseJS operation
  pure { c with wheres := c.wheres ++ [(field, op, value, boolean)] }

/-- The `where` method (`where` is a Lean keyword, hence the trailing
underscore).  The positional defaults mirror the source: with `_value`
undefined the operation defaults to `'='` and the value is `_operation`;
the combinator defaults to `'and'`.  A first argument of object type
(`typeof === "object"`: plain objects, arrays, `null`) is iterated with
`for..in`; anything else is a field name used positionally. -/
def Collection.where_ (c : Collection) (objects _operation _value _boolean : JSVal) :
    Except String Collection :=
  let operation := if _value.isUndef then JSVal.str "=" else _operation
  let value := if _value.isUndef then _operation else _value
  let boolean := if _boolean.isUndef then JSVal.str "and" else _boolean
  match objects with
  | .obj entries =>
      entries.foldlM (fun acc e =>
        match e.2 with
        | .arr vs => acc.addWhere (.str e.1) (vs.getD 0 .undef) (vs.getD 1 .undef) boolean
        | v => acc.addWhere (.str e.1) (.str "=") v boolean) c
  | .arr elems =>
      elems.enum.foldlM (fun acc e =>
        match e.2 with
        | .arr vs => acc.addWhere (.str (toString e.1)) (vs.getD 0 .undef) (vs.getD 1 .undef) boolean
        | v => acc.addWhere (.str (toString e.1)) (.str "=") v boolean) c
  | .null => .ok c
  | v => c.addWhere v operation value boolean

/-- The `orWhere` method: `where` with the combinator forced to `"or"`. -/
def Collection.orWhere (c : Collection) (objects _operation _value : JSVal) :
    Except String Collection :=
  c.where_ objects _operation _value (.str "or")

/-- The `select(...)` method: stores the whole `arguments` list
(replace semantics; an empty call stores an empty — but still truthy —
arguments object). -/
def Collection.select (c : Collection) (args : List JSVal) : Collection :=
  { c with options := { c.options with select := some (.arr args) } }

/-- The `join(...)` method: stores `arguments` under the `with` option,
replace semantics. -/
def Collection.join (c : Collection) (args : List JSVal) : Collection :=
  { c with options := { c.options with with_ := some (.arr args) } }

/-- The `distinct()` method: sets the flag to `true`. -/
def Collection.distinct (c : Collection) : Collection :=
  { c with options := { c.options with distinct := some (.bool true) } }

/-- The `group(...)` method: overwrites `this._group` with `arguments`. -/
def Collection.group (c : Collection) (args : List JSVal) : Collection :=
  { c with _group := args }

/-- Truncation toward zero: `parseInt` reads only the digits before the
decimal point, so `-1.5` parses as `-1`. -/
def ratTrunc (q : ℚ) : ℤ :=
  if q < 0 then ⌈q⌉ else ⌊q⌋

/-- Model of `parseInt(String(d), 10)` for a finite JS number `d`.
`String` renders `d = 0` and every `d` with `1e-6 ≤ |d| < 1e21` in
positional decimal notation, on which `parseInt` keeps the integer part
(truncation toward zero); outside that range `String` uses exponent
notation (`"-1.5e+21"`, `"-1e-7"`), `parseInt` stops at the `e`, and the
result is the truncated mantissa `d / 10 ^ log10 |d|`. -/
def parseIntToString (d : ℚ) : ℤ :=
  if d = 0 then 0
  else if 1/1000000 ≤ |d| ∧ |d| < 1000000000000000000000 then ratTrunc d
  else ratTrunc (d / 10 ^ (Int.log 10 |d|))

/-- The `sort` method: a falsy direction becomes `"asc"`; a (truthy)
number `d` becomes `"desc"` exactly when `parseInt(d, 10) === -1` —
`parseInt` first coerces `d` to its string form, so every number whose
rendered integer part is `-1` (for positionally-notated numbers, every
`d` with `-2 < d ≤ -1`) sorts descending — and `"asc"` otherwise; any
other truthy value is pushed verbatim.  Entries accumulate in call
order. -/
def Collection.sort (c : Collection) (field direction : JSVal) : Collection :=
  let dir :=
    if direction.truthy = false then JSVal.str "asc"
    else
      match direction with
      | .num n => if parseIntToString n = -1 then JSVal.str "desc" else JSVal.str "asc"
      | d => d
  { c with ordering := c.ordering ++ [(field, dir)] }

/-- The `limit` method: overwrites `this._limit`. -/
def Collection.limit (c : Collection) (int : JSVal) : Collection :=
  { c with _limit := some int }

/-- The `offset` method: overwrites `this._offset`. -/
def Collection.offset (c : Collection) (int : JSVal) : Collection :=
  { c with _offset := some int }

/-- The `remember` method: overwrites `this._remember`. -/
def Collection.remember (c : Collection) (minutes : JSVal) : Collection :=
  { c with _remember := some minutes }

/-- Projection of one scalar accumulator field into the descriptor:
`if (this._x !== null) { query.x = this._x; }`. -/
def projScalar (key : String) (v : Option JSVal) : List (String × JSVal) :=
  match v with
  | some x => [(key, x)]
  | none => []

/-- Projection of one option kind through the short-name loop:
`if (this.options[f]) { query[shortnames[f]] = this.options[f]; }` — the
key appears exactly when the stored value is present and truthy. -/
def projOpt (key : String) (v : Option JSVal) : List (String × JSVal) :=
  match v with
  | some x => if x.truthy then [(key, x)] else []
  | none => []

/-- Wire form of one stored clause: the 4-element array
`[field, operation, value, boolean]`. -/
def clauseVal : Clause → JSVal
  | (f, op, v, b) => .arr [f, .str op, v, b]

/-- Wire form of one ordering entry: the pair array `[field, direction]`. -/
def orderVal : JSVal × JSVal → JSVal
  | (f, d) => .arr [f, d]

/-- The `buildQuery` method: projects, in source order, `limit`, `offset`
and `remember` when set, `q`/`s`/`g` when the corresponding lists are
non-empty, then the option kinds through the short-name table
(`p`, `f`, `aggr`, `op`, `data`, `with`, `select`, `distinct`), and
finally resets the accumulator before returning the descriptor. -/
def Collection.buildQuery (c : Collection) : List (String × JSVal) × Collection :=
  let query :=
    projScalar "limit" c._limit
    ++ projScalar "offset" c._offset
    ++ projScalar "remember" c._remember
    ++ (if c.wheres.length > 0 then [("q", JSVal.arr (c.wheres.map clauseVal))] else [])
    ++ (if c.ordering.length > 0 then [("s", JSVal.arr (c.ordering.map orderVal))] else [])
    ++ (if c._group.length > 0 then [("g", JSVal.arr c._group)] else [])
    ++ projOpt "p" c.options.paginate
    ++ projOpt "f" c.options.first
    ++ projOpt "aggr" c.options.aggregation
    ++ projOpt "op" c.options.operation
    ++ projOpt "data" c.options.data
    ++ projOpt "with" c.options.with_
    ++ projOpt "select" c.options.select
    ++ projOpt "distinct" c.options.distinct
  (query, c.reset)

/-- The `create` method: posts the raw payload to the collection path,
leaving the accumulator untouched. -/
def Collection.create (c : Collection) (data : JSVal) : Dispatch × Collection :=
  (.post c.segments data, c)

/-- The `get` method: compiles the descriptor and issues the read. -/
def Collection.get (c : Collection) : Dispatch × Collection :=
  let (q, cr) := c.buildQuery
  (.get c.segments (.obj q), cr)

/-- The `find` method: compiles the descriptor and reads the item path
(result continuations are outside the dispatch model). -/
def Collection.find (c : Collection) (_id : JSVal) : Dispatch × Collection :=
  let (q, cr) := c.buildQuery
  (.get (c.segments ++ "/" ++ _id.jsStr) (.obj q), cr)

/-- The `update` method: posts the raw payload to the item path; the
accumulator is neither compiled nor reset. -/
def Collection.update (c : Collection) (_id data : JSVal) : Dispatch × Collection :=
  (.post (c.segments ++ "/" ++ _id.jsStr) data, c)

/-- The `remove` method: deletes the item path when an id is passed and
the bare collection path otherwise, and in both cases compiles the
descriptor and passes it as the query argument. -/
def Collection.remove (c : Collection) (_id : JSVal) : Dispatch × Collection :=
  let path := if _id.isUndef then c.segments else c.segments ++ "/" ++ _id.jsStr
  let (q, cr) := c.buildQuery
  (.remove path (some (.obj q)), cr)

/-- The `drop` method: deletes the bare collection path with no query
argument at all, leaving the accumulator untouched. -/
def Collection.drop (c : Collection) : Dispatch × Collection :=
  (.remove c.segments none, c)

/-- The `channel` method: throws `"Not implemented."` unconditionally
before anything else can happen. -/
def Collection.channel (_c : Collection) (_options : JSVal) : Except String Dispatch :=
  .error "Not implemented."

/-- The `paginate` method.  `Hook.Pagination` and `Hook.defaults` live
outside this file, so the process-wide default page size is an explicit
argument and the effective completion continuation (what the source
later invokes as `onComplete(pagination)`) is returned alongside the one
read dispatch.  The argument shuffle is the source's: when `onComplete`
is falsy, the first argument becomes the completion continuation and the
page size falls back to the default. -/
def Collection.paginate (c : Collection) (defaultPerPage perPage onComplete _onError : JSVal) :
    Dispatch × Collection × JSVal :=
  let pair :=
    if onComplete.truthy = false then (defaultPerPage, perPage) else (perPage, onComplete)
  let c1 : Collection := { c with options := { c.options with paginate := some pair.1 } }
  let (q, cr) := c1.buildQuery
  (.get c.segments (.obj q), cr, pair.2)

/-- Presence test the short-name loop applies to a stored option: the
slot is filled and its value is JS-truthy. -/
def optTruthy : Option JSVal → Bool
  | some x => x.truthy
  | none => false

/-- Modelled from the spec's words, independently of the source regexp:
the name charset `^[a-z_/0-9]+$`, i.e. non-empty and every character a
lowercase letter, digit, underscore or slash.  Used to check the code's
`_validateName` against the spec's characterisation. -/
def specNamePattern (s : String) : Prop :=
  s ≠ "" ∧ ∀ ch ∈ s.data, ('a' ≤ ch ∧ ch ≤ 'z') ∨ ch = '_' ∨ ch = '/' ∨ ('0' ≤ ch ∧ ch ≤ '9')

instance (s : String) : Decidable (specNamePattern s) := by
  unfold specNamePattern
  infer_instance

example : (JSVal.num 7).jsStr = "7" := rfl
example : toLowerCaseJS (.str "LIKE") = .ok "like" := rfl
example : nameRegexpTest "a_b/9" = true := rfl
example : nameRegexpTest "Ab" = false := rfl
example : nameRegexpTest "" = false := rfl
example :
    ((Collection.init "posts").limit (.num 5)).buildQuery
      = ([("limit", .num 5)], Collection.init "posts") := rfl
example :
    (((Collection.init "posts").select []).buildQuery).1 = [("select", .arr [])] := rfl
example :
    ((Collection.init "posts").paginate (.num 50) (.num 20) .undef .undef)
      = (.get "collection/posts" (.obj [("p", .num 50)]), Collection.init "posts", .num 20) := rfl

theorem mem_map_fst_projScalar (k key : String) (v : Option JSVal) :
    k ∈ (projScalar key v).map Prod.fst ↔ (k = key ∧ v.isSome = true) := by
  cases v <;> simp [projScalar]

theorem mem_map_fst_projOpt (k key : String) (v : Option JSVal) :
    k ∈ (projOpt key v).map Prod.fst ↔ (k = key ∧ optTruthy v = true) := by
  cases v with
  | none => simp [projOpt, optTruthy]
  | some x => cases h : x.truthy <;> simp [projOpt, optTruthy, h]

theorem mem_map_fst_listFrag {α : Type} (k key : String) (x : JSVal) (l : List α) :
    k ∈ ((if l.length > 0 then [(key, x)] else []).map Prod.fst) ↔ (k = key ∧ l ≠ []) := by
  cases l <;> simp

theorem nameRegexpTest_iff_specNamePattern (s : String) :
    nameRegexpTest s = true ↔ specNamePattern s := by
  have hd : (s ≠ "") ↔ s.data ≠ [] :=
    ⟨fun h hdd => h (String.ext hdd), fun h he => h (by rw [he])⟩
  have hlen : (s.length > 0) ↔ s ≠ "" := by
    rw [hd]
    show 0 < s.data.length ↔ _
    exact List.length_pos
  unfold nameRegexpTest specNamePattern
  rw [Bool.and_eq_true, decide_eq_true_eq, List.all_eq_true, hlen]
  constructor
  · rintro ⟨h1, h2⟩
    refine ⟨h1, fun ch hch => ?_⟩
    have := h2 ch hch
    unfold nameChar at this
    simpa [Bool.or_eq_true, Bool.and_eq_true, decide_eq_true_eq, beq_iff_eq, or_assoc]
      using this
  · rintro ⟨h1, h2⟩
    refine ⟨h1, fun ch hch => ?_⟩
    have := h2 ch hch
    unfold nameChar
    simpa [Bool.or_eq_true, Bool.and_eq_true, decide_eq_true_eq, beq_iff_eq, or_assoc]
      using this

theorem parseIntToString_positional (d : ℚ) (h1 : 1/1000000 ≤ |d|)
    (h2 : |d| < 1000000000000000000000) :
    parseIntToString d = -1 ↔ (-2 < d ∧ d ≤ -1) := by
  have hd0 : d ≠ 0 := by
    intro h
    rw [h] at h1
    simp at h1
    linarith
  unfold parseIntToString ratTrunc
  rw [if_neg hd0, if_pos ⟨h1, h2⟩]
  by_cases hneg : d < 0
  · rw [if_pos hneg]
    rw [Int.ceil_eq_iff]
    constructor
    · rintro ⟨ha, hb⟩
      push_cast at ha hb
      exact ⟨by linarith, hb⟩
    · rintro ⟨ha, hb⟩
      constructor
      · push_cast
        linarith
      · push_cast
        linarith
  · rw [if_neg hneg]
    push_neg at hneg
    constructor
    · intro hfl
      have := Int.floor_nonneg.mpr hneg
      omega
    · rintro ⟨ha, hb⟩
      nlinarith [hb, hneg]

/-- C1 (counterexample): on a concrete builder, `update(1, {title:"t"})`
dispatches through the transport's `post` channel, not its `put`
channel as the claim states. -/
theorem update_not_put_cex :
    ((Collection.init "posts").update (.num 1) (.obj [("title", .str "t")])).1
        = .post "collection/posts/1" (.obj [("title", .str "t")]) ∧
    ((Collection.init "posts").update (.num 1) (.obj [("title", .str "t")])).1.isPut = false :=
  ⟨rfl, rfl⟩

/-- C1 (amended): for every builder state, id and data payload,
`update(id, data)` dispatches through the transport's `post` channel on
path `collection/<id>` with the raw payload as body, without compiling
or resetting the accumulator. -/
theorem update_post_raw_payload (c : Collection) (_id data : JSVal) :
    c.update _id data = (.post (c.segments ++ "/" ++ _id.jsStr) data, c) := rfl

/-- C2 (counterexample): with the process-wide default page size 50,
`paginate(20)` with no completion callback sets the `p` key of the
dispatched descriptor to 50 — not to 20 as the claim states — and turns
the number 20 into the completion continuation. -/
theorem paginate_default_cex :
    (Collection.init "posts").paginate (.num 50) (.num 20) .undef .undef
      = (.get "collection/posts" (.obj [("p", .num 50)]), Collection.init "posts", .num 20) ∧
    JSVal.obj [("p", JSVal.num 50)] ≠ JSVal.obj [("p", JSVal.num 20)] :=
  ⟨rfl, by simp⟩

/-- C2 (amended): for every builder state and number `n`, `paginate(n)`
with no completion callback supplied sets the paginate option to the
process-wide default page size (registering `n` as the completion
continuation), dispatches exactly one read with the descriptor compiled
from that state, and resets the accumulator. -/
theorem paginate_shuffle_no_callback (c : Collection) (dflt : JSVal) (n : ℚ) :
    c.paginate dflt (.num n) .undef .undef =
      (.get c.segments
        (.obj (({ c with options := { c.options with paginate := some dflt } }).buildQuery).1),
       c.reset, .num n) := rfl

/-- C3 (counterexample): after `limit(5)`, `remove(7)` dispatches DELETE
on the item path `collection/posts/7` but still passes the compiled
descriptor as the query argument — the claim's "with no query" is
false. -/
theorem remove_id_query_cex :
    ((Collection.init "posts").limit (.num 5)).remove (.num 7)
      = (.remove "collection/posts/7" (some (.obj [("limit", .num 5)])), Collection.init "posts") ∧
    some (JSVal.obj [("limit", JSVal.num 5)]) ≠ (none : Option JSVal) ∧
    JSVal.obj [("limit", JSVal.num 5)] ≠ JSVal.obj [] :=
  ⟨rfl, by simp, by simp⟩

/-- C3 (amended): for every accumulator state, `remove()` with no id
dispatches DELETE on the bare collection path and `remove(id)` on the
path suffixed `/<id>`, in both cases passing the compiled descriptor
(carrying current where-clauses) as query, and in both cases the
accumulator is cleared by the call. -/
theorem remove_dispatch_spec (c : Collection) (_id : JSVal) :
    c.remove _id =
      (.remove (if _id.isUndef then c.segments else c.segments ++ "/" ++ _id.jsStr)
        (some (.obj (c.buildQuery).1)), c.reset) := rfl

/-- C4 (counterexample): after `select()` with zero arguments the
compiled descriptor does contain the `select` key, mapped to an empty
list — the claim says the key would be absent and no key maps to an
empty value. -/
theorem select_empty_key_cex :
    (((Collection.init "posts").select []).buildQuery).1 = [("select", JSVal.arr [])] ∧
    (((Collection.init "posts").select []).buildQuery).1.map Prod.fst = ["select"] ∧
    (((Collection.init "posts").select []).buildQuery).1 ≠ [] := by
  refine ⟨rfl, rfl, ?_⟩
  rw [show (((Collection.init "posts").select []).buildQuery).1
      = [("select", JSVal.arr [])] from rfl]
  simp

/-- C4 (amended): the compiled descriptor contains a key exactly when
the underlying state is JS-truthy: `limit`/`offset`/`remember` when the
scalar is set (even to 0), `q`/`s`/`g` when the corresponding list is
non-empty, and an option key when the stored option value is present and
truthy — so `select()`/`join()` with zero arguments, which store an
(always truthy) empty arguments list, do produce `select`/`with` keys
mapping to empty lists. -/
theorem buildQuery_key_presence (c : Collection) (k : String) :
    k ∈ (c.buildQuery).1.map Prod.fst ↔
      ((k = "limit" ∧ c._limit.isSome = true) ∨
       (k = "offset" ∧ c._offset.isSome = true) ∨
       (k = "remember" ∧ c._remember.isSome = true) ∨
       (k = "q" ∧ c.wheres ≠ []) ∨
       (k = "s" ∧ c.ordering ≠ []) ∨
       (k = "g" ∧ c._group ≠ []) ∨
       (k = "p" ∧ optTruthy c.options.paginate = true) ∨
       (k = "f" ∧ optTruthy c.options.first = true) ∨
       (k = "aggr" ∧ optTruthy c.options.aggregation = true) ∨
       (k = "op" ∧ optTruthy c.options.operation = true) ∨
       (k = "data" ∧ optTruthy c.options.data = true) ∨
       (k = "with" ∧ optTruthy c.options.with_ = true) ∨
       (k = "select" ∧ optTruthy c.options.select = true) ∨
       (k = "distinct" ∧ optTruthy c.options.distinct = true)) := by
  simp only [Collection.buildQuery, List.map_append, List.mem_append,
    mem_map_fst_projScalar, mem_map_fst_projOpt, mem_map_fst_listFrag, or_assoc]

/-- C5: construction succeeds exactly for names matching
`^[a-z_/0-9]+$`; on success the builder starts with the reset state and
`segments = 'collection/' + name`, and on any other string it fails
synchronously with the construction error and no other effect. -/
theorem construct_name_validation (s : String) :
    ((Collection.construct s).isOk = true ↔ specNamePattern s) ∧
    (specNamePattern s → Collection.construct s = .ok (Collection.init s)) ∧
    (¬ specNamePattern s → Collection.construct s = .error ("Invalid name: " ++ s)) := by
  have hiff := nameRegexpTest_iff_specNamePattern s
  cases h : nameRegexpTest s with
  | true =>
      have hp : specNamePattern s := hiff.mp h
      have hok : Collection.construct s = .ok (Collection.init s) := by
        unfold Collection.construct Collection._validateName
        rw [h]
        rfl
      exact ⟨iff_of_true (by rw [hok]; rfl) hp, fun _ => hok, fun hn => absurd hp hn⟩
  | false =>
      have hp : ¬ specNamePattern s := by
        intro hpp
        have := hiff.mpr hpp
        rw [h] at this
        exact Bool.noConfusion this
      have herr : Collection.construct s = .error ("Invalid name: " ++ s) := by
        unfold Collection.construct Collection._validateName
        rw [h]
        rfl
      refine ⟨iff_of_false ?_ hp, fun hpp => absurd hpp hp, fun _ => herr⟩
      intro hh
      rw [herr] at hh
      exact Bool.noConfusion hh

/-- C5 (witness): a valid and an invalid concrete name. -/
theorem construct_name_validation_witness :
    (Collection.construct "users").isOk = true ∧
    Collection.construct "USERS" = .error "Invalid name: USERS" :=
  ⟨(construct_name_validation "users").1.mpr (by decide),
   (construct_name_validation "USERS").2.2 (by decide)⟩

/-- C6: `where(f, v)` and `where(f, "=", v)` (for a supplied, defined
value `v`) leave identical state, appending the single clause
`(f, "=", v, "and")`; and the map form `where({a: 1, b: [">", 2]})`
appends the clauses `(a,"=",1,"and")` and `(b,">",2,"and")` in entry
order, a bare value defaulting the operator to `"="` and a pair
supplying operator and value. -/
theorem where_normalization (c : Collection) (f : String) (v : JSVal)
    (h : v.isUndef = false) :
    c.where_ (.str f) v .undef .undef = c.where_ (.str f) (.str "=") v .undef ∧
    c.where_ (.str f) v .undef .undef =
      .ok { c with wheres := c.wheres ++ [(.str f, "=", v, .str "and")] } ∧
    c.where_ (.obj [("a", .num 1), ("b", .arr [.str ">", .num 2])]) .undef .undef .undef =
      .ok { c with wheres := c.wheres ++
        [(.str "a", "=", .num 1, .str "and"), (.str "b", ">", .num 2, .str "and")] } := by
  refine ⟨?_, rfl, ?_⟩
  · cases v with
    | undef => exact Bool.noConfusion h
    | null => rfl
    | bool b => rfl
    | num n => rfl
    | str s => rfl
    | arr xs => rfl
    | obj es => rfl
  · calc
      c.where_ (.obj [("a", .num 1), ("b", .arr [.str ">", .num 2])]) .undef .undef .undef
          = .ok { c with wheres :=
              (c.wheres ++ [(.str "a", "=", .num 1, .str "and")])
                ++ [(.str "b", ">", .num 2, .str "and")] } := rfl
      _ = .ok { c with wheres := c.wheres ++
            [(.str "a", "=", .num 1, .str "and"), (.str "b", ">", .num 2, .str "and")] } := by
          rw [List.append_assoc]
          rfl

/-- C6 (witness): the two positional shapes coincide at a concrete
field and value. -/
theorem where_normalization_witness :
    (Collection.init "posts").where_ (.str "author") (.str "Vicente") .undef .undef
      = (Collection.init "posts").where_ (.str "author") (.str "=") (.str "Vicente") .undef :=
  (where_normalization (Collection.init "posts") "author" (.str "Vicente") rfl).1

/-- C7: compiling resets the accumulator synchronously (the state handed
back is exactly the reset state), so compiling twice with no intervening
modifier calls yields the empty descriptor the second time. -/
theorem buildQuery_compile_and_reset (c : Collection) :
    (c.buildQuery).2 = c.reset ∧ (c.buildQuery).2.buildQuery = ([], c.reset) :=
  ⟨rfl, rfl⟩

/-- C8 (counterexample): the direction `-1.5` is numeric and different
from `-1`, yet the program stores `"desc"` for it — `parseInt(-1.5, 10)`
truncates the rendered `"-1.5"` to `-1` — refuting the claim's "any
other numeric is stored as asc". -/
theorem sort_parseInt_truncation_cex :
    ((Collection.init "users").sort (.str "x") (.num (-3/2))).ordering
      = [(.str "x", .str "desc")] ∧
    (-3/2 : ℚ) ≠ -1 ∧
    JSVal.str "desc" ≠ JSVal.str "asc" := by
  have habs : |(-3/2 : ℚ)| = 3/2 := by
    rw [abs_of_neg (by norm_num)]
    norm_num
  have hv : parseIntToString (-3/2) = -1 :=
    (parseIntToString_positional (-3/2) (by rw [habs]; norm_num)
      (by rw [habs]; norm_num)).mpr ⟨by norm_num, by norm_num⟩
  have ht : (JSVal.num (-3/2)).truthy = true := by
    simp [JSVal.truthy]
  refine ⟨?_, by norm_num, by simp⟩
  simp [Collection.sort, Collection.init, ht, hv]

/-- C8 (amended): sort direction normalization follows
`parseInt(String(direction), 10)`: an omitted or falsy direction is
stored as `"asc"`; a truthy numeric direction is stored as `"desc"`
exactly when its parsed integer part is `-1` — in the positional
notation range `1e-6 ≤ |d| < 1e21` this means `-2 < d ≤ -1`, so `-1` but
also e.g. `-1.5` — and as `"asc"` for every other numeric; a non-numeric
truthy direction is stored verbatim; and sort calls are cumulative, so
`sort("x").sort("y", -1)` yields `[["x","asc"],["y","desc"]]`. -/
theorem sort_direction_parseInt (c : Collection) (f d : JSVal) (q : ℚ) :
    (c.sort f (.num (-1))).ordering = c.ordering ++ [(f, .str "desc")] ∧
    (q ≠ 0 → (c.sort f (.num q)).ordering
      = c.ordering ++ [(f, .str (if parseIntToString q = -1 then "desc" else "asc"))]) ∧
    (1/1000000 ≤ |q| → |q| < 1000000000000000000000 →
      (parseIntToString q = -1 ↔ (-2 < q ∧ q ≤ -1))) ∧
    ((c.sort f .undef).ordering = c.ordering ++ [(f, .str "asc")]) ∧
    (d.truthy = false → (c.sort f d).ordering = c.ordering ++ [(f, .str "asc")]) ∧
    (d.truthy = true → (∀ m : ℚ, d ≠ .num m) →
      (c.sort f d).ordering = c.ordering ++ [(f, d)]) ∧
    (((c.sort (.str "x") .undef).sort (.str "y") (.num (-1))).ordering
      = c.ordering ++ [(.str "x", .str "asc"), (.str "y", .str "desc")]) := by
  have habs1 : |(-1 : ℚ)| = 1 := by
    rw [abs_neg, abs_one]
  have hneg1 : parseIntToString (-1) = -1 :=
    (parseIntToString_positional (-1) (by rw [habs1]; norm_num)
      (by rw [habs1]; norm_num)).mpr ⟨by norm_num, by norm_num⟩
  have htneg1 : (JSVal.num (-1 : ℚ)).truthy = true := by
    simp [JSVal.truthy]
  refine ⟨?_, ?_, ?_, rfl, ?_, ?_, ?_⟩
  · simp [Collection.sort, htneg1, hneg1]
  · intro hq
    have ht : (JSVal.num q).truthy = true := by
      simp [JSVal.truthy, hq]
    simp [Collection.sort, ht, apply_ite]
  · intro h1 h2
    exact parseIntToString_positional q h1 h2
  · intro h
    simp [Collection.sort, h]
  · intro ht hnum
    cases d with
    | num m => exact absurd rfl (hnum m)
    | undef => cases ht
    | null => cases ht
    | bool b => simp [Collection.sort, ht]
    | str s => simp [Collection.sort, ht]
    | arr xs => simp [Collection.sort, ht]
    | obj es => simp [Collection.sort, ht]
  · simp [Collection.sort, JSVal.truthy, htneg1, hneg1, List.append_assoc]

/-- C8 (witness): concrete instances — the positive direction `2`
normalizes to `"asc"` (its parsed integer part is `2`, not `-1`) and the
non-numeric truthy direction `"desc"` is stored verbatim. -/
theorem sort_direction_parseInt_witness :
    ((Collection.init "users").sort (.str "a") (.num 2)).ordering = [(.str "a", .str "asc")] ∧
    ((Collection.init "users").sort (.str "a") (.str "desc")).ordering
      = [(.str "a", .str "desc")] := by
  have habs2 : |(2 : ℚ)| = 2 := abs_of_pos (by norm_num)
  have h := sort_direction_parseInt (Collection.init "users") (.str "a") (.str "desc") 2
  refine ⟨?_, ?_⟩
  · have h2 := h.2.1 (by norm_num)
    have h3 : ¬ (parseIntToString 2 = -1) := by
      rw [h.2.2.1 (by rw [habs2]; norm_num) (by rw [habs2]; norm_num)]
      norm_num
    rw [h2]
    simp [h3, Collection.init]
  · simpa using h.2.2.2.2.2.1 rfl (fun m hm => by cases hm)

/-- C9: for every prior builder state and options argument, `channel()`
fails synchronously with the not-implemented error, producing no
transport dispatch. -/
theorem channel_not_implemented (c : Collection) (opts : JSVal) :
    c.channel opts = .error "Not implemented." ∧ (c.channel opts).isOk = false :=
  ⟨rfl, rfl⟩

/-- C10: `create`, `update` and `drop` never compile and never reset —
the builder state after each call is exactly the state before it, and
the dispatched request carries the raw payload (or, for `drop`, no query
argument at all). -/
theorem raw_writes_frame (c : Collection) (_id data : JSVal) :
    c.create data = (.post c.segments data, c) ∧
    c.update _id data = (.post (c.segments ++ "/" ++ _id.jsStr) data, c) ∧
    c.drop = (.remove c.segments none, c) :=
  ⟨rfl, rfl, rfl⟩
